import Mathlib

/-!
# Verification of the Probaah request-understanding and workflow-orchestration engine

Shallow embedding of the orchestration core of the `probaah` repository:

* `plugins/ai/orchestrator.py`   — `ProbaahAIOrchestrator` (parse, plan, execute)
* `plugins/ai/mdcrow_agent.py`   — `MDCrowAgent` (intent analysis, tool planning,
  tool execution, response synthesis)
* `plugins/ai/packmol_wrapper.py` — `ProbaahPackmol.gas_substitution_workflow` /
  `_execute_packmol` (failure behaviour of the packing collaborator)

## Text convention

A request is modelled as a list of whitespace-free, nonempty tokens (`Text`);
the concrete request string is the single-space join of the tokens
(`joinChars`).  All the Python regular expressions involved
(`then|and|,` splitting, keyword substring tests, `remove\s+(\w+)`-style
captures, `\d+` number scans) contain no whitespace inside an alternative, so
a match of any of them lies inside one token or spans a single inter-token
space; each is rendered below either directly on the joined character list or
as the exactly corresponding token-level function, as documented at each
definition.

Wall-clock timestamps and progress-percentage updates are presentation-only
side effects with no control-flow influence and are not modelled.  The rich
console renders, however, are *not* inert: rendering interpolated request
text as console markup raises `MarkupError` on an unmatched closing tag, and
two such renders run outside any `try` block (`process_request`'s entry
banner and `_display_workflow_plan`), so they appear in the model as
fallible operations (`markupCheck`).  External collaborator outcomes
(process exit codes, timeouts, raised exceptions) are supplied by explicit
environment values.
-/

namespace Probaah

/-- A request text: the list of whitespace-free tokens of the request,
originally joined by single spaces. -/
abbrev Text := List String

/-- The raw request the Python code sees, as a char list: the tokens
joined by single spaces. -/
def joinChars : Text → List Char
  | [] => []
  | [w] => w.toList
  | w :: ws => w.toList ++ ' ' :: joinChars ws

/-- Python's `str.lower()` restricted to the ASCII range used by the code. -/
def lowerChars (cs : List Char) : List Char :=
  cs.map Char.toLower

/-- `strStartsWith n h` holds when char list `n` is an initial segment of `h`. -/
def strStartsWith : List Char → List Char → Bool
  | [], _ => true
  | _ :: _, [] => false
  | a :: as, b :: bs => a == b && strStartsWith as bs

/-- `hasSubstr n h`: char list `n` occurs contiguously inside `h`;
this is Python's `n in h` on strings. -/
def hasSubstr (n : List Char) : List Char → Bool
  | [] => strStartsWith n []
  | c :: cs => strStartsWith n (c :: cs) || hasSubstr n cs

/-- Python `kw in request.lower()` for a (lower-case, whitespace-free)
keyword `kw` against the joined request string. -/
def containsKw (text : Text) (kw : String) : Bool :=
  hasSubstr kw.toList (lowerChars (joinChars text))

/-- Case-insensitive literal match at the head of a char list: the pattern
(given lower-case) matches the text with `re.IGNORECASE`. -/
def startsWithCI : List Char → List Char → Bool
  | [], _ => true
  | _ :: _, [] => false
  | p :: ps, c :: cs => p == c.toLower && startsWithCI ps cs

/-- Python's `\s` class: space, tab, newline, carriage return, form feed,
vertical tab. -/
def isSpaceChar (c : Char) : Bool :=
  c == ' ' || c == '\t' || c == '\n' || c == '\r' || c == '\x0b' || c == '\x0c'

/-- Python's `\w` class (ASCII): letters, digits, underscore. -/
def isWordChar (c : Char) : Bool :=
  c.isAlphanum || c == '_'

/-- Numeric value of a (nonempty) digit run, as Python `int(...)` computes it. -/
def parseNatDigits (cs : List Char) : Nat :=
  cs.foldl (fun acc c => 10 * acc + (c.toNat - '0'.toNat)) 0

/-- `re.findall(r'\d+', s)`: the maximal digit runs of `s`, left to right.
`acc` carries the digits of the run currently being read, reversed. -/
def digitRunsAux (acc : List Char) : List Char → List (List Char)
  | [] => if acc.isEmpty then [] else [acc.reverse]
  | c :: cs =>
    if c.isDigit then digitRunsAux (c :: acc) cs
    else (if acc.isEmpty then [] else [acc.reverse]) ++ digitRunsAux [] cs

/-- All maximal digit runs of a char list. -/
def digitRuns (cs : List Char) : List (List Char) :=
  digitRunsAux [] cs

/-! ### Generic regex-style scanners used by the parameter extractors

Each scanner renders one specific Python regular expression, scanning every
start position left to right exactly as `re.search`/`re.findall` do. -/

/-- `re.search(kw + r'\s+(\w+)', request, re.IGNORECASE).group(1)`:
find the leftmost occurrence of the literal `kw` (case-insensitively)
followed by at least one whitespace character and then at least one word
character; capture the maximal word-character run.  Whitespace and word
characters are disjoint, so the greedy `\s+`/`\w+` runs need no
backtracking. -/
def kwCaptureScan (kw : List Char) : List Char → Option String
  | [] => none
  | c :: cs =>
    (if startsWithCI kw (c :: cs) then
      let rest := (c :: cs).drop kw.length
      let ws := rest.takeWhile isSpaceChar
      if ws.isEmpty then none
      else
        let cap := (rest.drop ws.length).takeWhile isWordChar
        if cap.isEmpty then none else some (String.mk cap)
    else none).orElse fun _ => kwCaptureScan kw cs

/-- The unit alternation `(?:molecules?|atoms?|radicals?)`: each alternative
is a stem plus an optional trailing `s`, and nothing follows it in the
pattern, so matching the stem as a prefix suffices. -/
def unitMatch (cs : List Char) : Bool :=
  startsWithCI "molecule".toList cs || startsWithCI "atom".toList cs ||
    startsWithCI "radical".toList cs

/-- `re.search(r'(\d+)\s+(?:molecules?|atoms?|radicals?)', request,
re.IGNORECASE)`: leftmost digit run followed by whitespace and a unit word;
returns `int(group(1))`.  A failed continuation restarts inside the digit
run, where the same (shorter-run) check fails again, so scanning each start
position is faithful. -/
def countUnitScan : List Char → Option Nat
  | [] => none
  | c :: cs =>
    (if c.isDigit then
      let run := (c :: cs).takeWhile Char.isDigit
      let rest := (c :: cs).drop run.length
      let ws := rest.takeWhile isSpaceChar
      if !ws.isEmpty && unitMatch (rest.drop ws.length) then
        some (parseNatDigits run)
      else none
    else none).orElse fun _ => countUnitScan cs

/-- `re.search(r'density\s+(\d+(?:\.\d+)?)', request, re.IGNORECASE)`:
leftmost `density` literal, whitespace, then a decimal numeral.  The
captured numeral is kept as its source string (the Python code converts it
with `float(...)`; no later logic inspects the value). -/
def densityScan : List Char → Option String
  | [] => none
  | c :: cs =>
    (if startsWithCI "density".toList (c :: cs) then
      let rest := (c :: cs).drop 7
      let ws := rest.takeWhile isSpaceChar
      if ws.isEmpty then none
      else
        let digs := (rest.drop ws.length).takeWhile Char.isDigit
        if digs.isEmpty then none
        else
          let rest2 := (rest.drop ws.length).drop digs.length
          match rest2 with
          | '.' :: r3 =>
            let frac := r3.takeWhile Char.isDigit
            if frac.isEmpty then some (String.mk digs)
            else some (String.mk (digs ++ '.' :: frac))
          | _ => some (String.mk digs)
    else none).orElse fun _ => densityScan cs

/-- Python `str.strip()`: drop whitespace from both ends. -/
def stripChars (cs : List Char) : List Char :=
  ((cs.dropWhile isSpaceChar).reverse.dropWhile isSpaceChar).reverse

/-- `re.search(r'title[:\s]+([^,\n]+)', request, re.IGNORECASE)` followed by
`.group(1).strip()`: leftmost `title` literal, then a nonempty run of colons
and whitespace, then a nonempty capture up to the next comma or newline.
If the greedy separator run swallows everything up to a comma (so the
capture would be empty), the regex backtracks one separator character —
possible exactly when the run has length at least two, every separator
character also being admissible in `[^,\n]+`. -/
def titleScan : List Char → Option String
  | [] => none
  | c :: cs =>
    (if startsWithCI "title".toList (c :: cs) then
      let rest := (c :: cs).drop 5
      let sep := rest.takeWhile (fun d => d == ':' || isSpaceChar d)
      if sep.isEmpty then none
      else
        let cap := (rest.drop sep.length).takeWhile fun d => d != ',' && d != '\n'
        if !cap.isEmpty then some (String.mk (stripChars cap))
        else if sep.length ≥ 2 then
          let cap2 := (rest.drop (sep.length - 1)).takeWhile
            fun d => d != ',' && d != '\n'
          some (String.mk (stripChars cap2))
        else none
    else none).orElse fun _ => titleScan cs

/-! ### File-name entity extraction

`_extract_entities` collects file names with
`re.findall(r'(\w+\.(xyz|pdb|bgf|traj|car|mol2))', request, re.IGNORECASE)`
(and, in the agent, the `\w+_\w+\.ext` variant; the orchestrator adds a
third generic `[a-zA-Z0-9_-]+\.[a-zA-Z0-9]+` pattern).  A match is a maximal
word-character run followed by `.` and an extension from the whitelist: a
shorter (backtracked) run would have to continue with a word character where
the pattern demands `.`, so only maximal runs can match.  The scanner walks
the char list with explicit fuel (one unit per character, always
sufficient), collecting matches left to right, non-overlapping. -/

/-- The extension whitelist, tried in the pattern's alternation order; the
result keeps the original characters of the match. -/
def extWhitelist : List String := ["xyz", "pdb", "bgf", "traj", "car", "mol2"]

/-- Match one extension alternative at the head of `cs`, returning the
matched (original-case) characters and the remainder. -/
def extMatch (cs : List Char) : Option (List Char × List Char) :=
  (extWhitelist.find? fun e => startsWithCI e.toList cs).map fun e =>
    (cs.take e.length, cs.drop e.length)

/-- One `findall` pass of the `\w+\.(ext)` file pattern; `needsUnderscore`
selects the `\w+_\w+\.(ext)` variant, which additionally requires an
underscore strictly inside the word run. -/
def fileScanAux (needsUnderscore : Bool) : Nat → List Char → List String
  | 0, _ => []
  | _ + 1, [] => []
  | fuel + 1, c :: cs =>
    if isWordChar c then
      let run := (c :: cs).takeWhile isWordChar
      let rest := (c :: cs).drop run.length
      let okUnderscore := !needsUnderscore || ((run.drop 1).dropLast.contains '_')
      match rest with
      | '.' :: afterDot =>
        match extMatch afterDot with
        | some (ext, rest2) =>
          if okUnderscore then
            String.mk (run ++ '.' :: ext) :: fileScanAux needsUnderscore fuel rest2
          else fileScanAux needsUnderscore fuel rest
        | none => fileScanAux needsUnderscore fuel rest
      | _ => fileScanAux needsUnderscore fuel rest
    else fileScanAux needsUnderscore fuel cs

/-- All matches of the first file pattern `(\w+\.(xyz|pdb|bgf|traj|car|mol2))`. -/
def fileScan1 (cs : List Char) : List String :=
  fileScanAux false (cs.length + 1) cs

/-- All matches of the second file pattern `(\w+_\w+\.(xyz|pdb|bgf|traj|car|mol2))`. -/
def fileScan2 (cs : List Char) : List String :=
  fileScanAux true (cs.length + 1) cs

/-- The orchestrator's third, generic file pattern
`([a-zA-Z0-9_-]+\.[a-zA-Z0-9]+)`: a run over letters/digits/`_`/`-`, a dot,
and a nonempty alphanumeric extension run. -/
def fileScanGenericAux : Nat → List Char → List String
  | 0, _ => []
  | _ + 1, [] => []
  | fuel + 1, c :: cs =>
    if isWordChar c || c == '-' then
      let run := (c :: cs).takeWhile fun d => isWordChar d || d == '-'
      let rest := (c :: cs).drop run.length
      match rest with
      | '.' :: afterDot =>
        let ext := afterDot.takeWhile Char.isAlphanum
        if ext.isEmpty then fileScanGenericAux fuel rest
        else String.mk (run ++ '.' :: ext) ::
          fileScanGenericAux fuel (afterDot.drop ext.length)
      | _ => fileScanGenericAux fuel rest
    else fileScanGenericAux fuel cs

/-- All matches of the generic file pattern. -/
def fileScanGeneric (cs : List Char) : List String :=
  fileScanGenericAux (cs.length + 1) cs

/-! ### The rich console markup renderer

`console.print`, `Table` cells and the other rich renderables interpret
their text as console markup.  The renderer is an external collaborator
(the third-party `rich` library), but its error behaviour is load-bearing:
rendering raises `MarkupError` when a closing tag matches no open tag, and
two such renders happen *outside* any `try` block (the request banner at
`process_request`'s entry, and `_display_workflow_plan` before
`execute_workflow`'s `try`), so a markup-malformed request escapes to the
caller.  `markupCheck` models the fragment of the renderer's tag-matching
discipline that decides this error: a tag is `[` followed by content whose
first character is a lowercase letter, `#`, `/` or `@`, containing no `[`,
terminated by `]`; opening tags push their content, a named closing tag
removes the most recent open tag with the same (stripped) name and errors
when none exists, a bare `[/]` closes the most recent tag and errors on an
empty stack; unclosed open tags at end of text are auto-closed without
error; a bracket directly preceded by a backslash is escaped, literal
text (the position number in the renderer's message and longer
backslash-run parity are not reproduced; no text in this development
contains backslashes). -/

namespace Orchestrator

/-! ## `plugins/ai/orchestrator.py` — `ProbaahAIOrchestrator` -/

/-- The command-parsing pattern table of `parse_natural_language_request`,
in declaration order.  Each pattern is an alternation of literal keywords;
`re.search(pattern, request_lower)` succeeds iff some alternative occurs as
a substring of the lowered request. -/
def patterns : List (String × List String) :=
  [("substitute", ["substitute", "replace", "swap"]),
   ("remove", ["remove", "delete", "eliminate"]),
   ("add", ["add", "insert", "place"]),
   ("analyze", ["analyze", "analysis", "examine", "study"]),
   ("validate", ["validate", "verify", "check", "inspect"]),
   ("presentation", ["presentation", "slides", "powerpoint", "ppt"]),
   ("visualize", ["visualize", "render", "display", "show"]),
   ("workflow", ["workflow", "pipeline", "process", "complete"])]

/-- Whether any alternative of a pattern occurs in the request. -/
def matchesAny (text : Text) (alts : List String) : Bool :=
  alts.any (containsKw text)

/-- `primary_action`: the first pattern in table order that matches, or
Python `None` when nothing matches (the loop's initial value survives). -/
def primaryAction (text : Text) : Option String :=
  (patterns.find? fun p => matchesAny text p.2).map (·.1)

/-- The lighter action table of `_identify_action`, in declaration order. -/
def actionPatterns : List (String × List String) :=
  [("substitute", ["substitute", "replace", "swap"]),
   ("analyze", ["analyze", "analysis", "examine"]),
   ("validate", ["validate", "verify", "check"]),
   ("presentation", ["presentation", "slides", "powerpoint"]),
   ("visualize", ["visualize", "render", "display"])]

/-- `_identify_action`: first matching action, falling back to `"unknown"`. -/
def identifyAction (frag : Text) : String :=
  ((actionPatterns.find? fun p => matchesAny frag p.2).map (·.1)).getD "unknown"

/-- `_estimate_step_time`: static seconds lookup; `dict.get(action, 10)`
also covers a `None` action and actions missing from the table. -/
def estimateStepTime (action : Option String) : Nat :=
  (action.bind fun a =>
    ([("substitute", 60), ("analyze", 30), ("validate", 45),
      ("presentation", 20), ("visualize", 15), ("unknown", 10)]
      : List (String × Nat)).lookup a).getD 10

/-- A planned workflow step: the dict
`{'action': ..., 'description': ..., 'estimated_time': ...}`. -/
structure Step where
  action : Option String
  description : Text
  estimatedTime : Nat
deriving DecidableEq, Repr

/-- A conjunction token of the split pattern `\s+(?:then|and|,)\s+`
(matched case-insensitively). -/
def isConjMarker (t : String) : Bool :=
  lowerChars t.toList == "then".toList || lowerChars t.toList == "and".toList || t == ","

/-- Token-level rendering of
`re.split(r'\s+(?:then|and|,)\s+', request, flags=re.IGNORECASE)` on the
single-space join of the tokens.  A marker token separates two fragments
exactly when whitespace is still available on both of its sides: the
accumulated fragment must be nonempty (a marker opening the request, or one
immediately following a previous separator whose trailing `\s+` consumed the
gap, has no preceding whitespace left) and at least one token must follow
(a marker closing the request has no trailing whitespace).  `cur` holds the
current fragment's tokens in reverse. -/
def splitConjAux (cur : Text) : Text → List Text
  | [] => [cur.reverse]
  | t :: rest =>
    if isConjMarker t && !cur.isEmpty && !rest.isEmpty then
      cur.reverse :: splitConjAux [] rest
    else splitConjAux (t :: cur) rest

/-- Split a request on the conjunction markers. -/
def splitConj (text : Text) : List Text :=
  splitConjAux [] text

/-- `'then' in request.lower() or 'and' in request.lower()`. -/
def containsThenAnd (text : Text) : Bool :=
  containsKw text "then" || containsKw text "and"

/-- `_infer_workflow_steps`: split on conjunctions when the request contains
`then`/`and` (each nonempty stripped fragment is re-classified and becomes
one step), otherwise a single step carrying the primary action.  Fragments
are already whitespace-free token lists, so `part.strip()` is the identity
and `if part:` is the nonemptiness filter. -/
def inferWorkflowSteps (text : Text) (primary : Option String) : List Step :=
  if containsThenAnd text then
    ((splitConj text).filter fun p => !p.isEmpty).map fun p =>
      { action := some (identifyAction p), description := p,
        estimatedTime := estimateStepTime (some (identifyAction p)) }
  else
    [{ action := primary, description := text,
       estimatedTime := estimateStepTime primary }]

/-- The entity categories the executor reads (`_extract_entities`); only
`entities['files']` is ever consumed downstream (`files[0]` or absence),
so the `molecules`/`numbers`/`properties` lists — populated but never read
by any later step — are not carried. -/
structure Entities where
  files : List String
deriving DecidableEq, Repr

/-- The three file patterns applied in order, each appending all its
matches over the request. -/
def extractEntities (text : Text) : Entities :=
  let cs := joinChars text
  { files := fileScan1 cs ++ fileScan2 cs ++ fileScanGeneric cs }

/-- The analysis-option toggles. -/
structure AnalysisOpts where
  bonds : Bool
  rdf : Bool
  energy : Bool
  plots : Bool
deriving DecidableEq, Repr

/-- The parameter dict of `_extract_parameters`.  `title` is present to
model the executor's `parameters.get('title', 'Research Results')` lookup;
the extractor never assigns that key, so it is always `none` here. -/
structure Params where
  density : Option String
  count : Option Nat
  visualValidation : Option Bool
  analysisOptions : Option AnalysisOpts
  title : Option String
deriving DecidableEq, Repr

/-- `_extract_parameters`, pattern for pattern. -/
def extractParameters (text : Text) : Params :=
  let cs := joinChars text
  { density := densityScan cs,
    count := countUnitScan cs,
    visualValidation :=
      if ["visual", "validate", "check", "inspect"].any (containsKw text)
      then some true else none,
    analysisOptions :=
      if ["bond", "rdf", "energy", "plot"].any (containsKw text) then
        some { bonds := containsKw text "bond", rdf := containsKw text "rdf",
               energy := containsKw text "energy", plots := containsKw text "plot" }
      else none,
    title := none }

/-- The parsed command structure returned by
`parse_natural_language_request` (the `timestamp` field is wall-clock
only and not modelled). -/
structure Command where
  originalRequest : Text
  primaryAction : Option String
  entities : Entities
  params : Params
  workflowSteps : List Step
deriving DecidableEq, Repr

/-- `parse_natural_language_request`. -/
def parseRequest (text : Text) : Command :=
  { originalRequest := text,
    primaryAction := primaryAction text,
    entities := extractEntities text,
    params := extractParameters text,
    workflowSteps := inferWorkflowSteps text (primaryAction text) }

/-! ## Step execution

External collaborator behaviour is supplied by an `Env` value.  Each
`_execute_*_step` helper either raises (modelled as `Except.error` with the
exception's message) or returns the collaborator's result — which, for
every collaborator reachable from the executor, is never Python `None`:

* `ProbaahPackmol.gas_substitution_workflow` wraps its whole body in
  `try/except` and always returns a result dict (`success`/`error` keys);
* `VIAMDIntegration.validate_structure` likewise catches everything and
  always returns a results dict;
* `ExistingProbaahTools.analyze_trajectory` and `create_presentation`
  re-raise their failures and otherwise return a dict / a path string;
* `_execute_visualize_step` returns a fixed status dict.
-/

/-- Outcome of the packing collaborator run inside
`gas_substitution_workflow` (`packmol_wrapper.py`). `prepFailure` is an
exception raised by the preparation steps 1–5 (missing structure file,
unsupported format, ...); the remaining constructors are the branches of
`_execute_packmol`: exit code 0, nonzero exit, `subprocess.TimeoutExpired`
after the 300-second (five-minute) ceiling, executable not found, or any
other exception during the subprocess call. -/
inductive PackmolOutcome where
  | exitZero
  | nonzeroExit
  | timeout
  | notAvailable
  | execRaise (msg : String)
  | prepFailure (msg : String)
deriving DecidableEq, Repr

/-- The observable part of the dict returned by
`gas_substitution_workflow` (`success` and `error` keys). -/
structure SubstResult where
  success : Bool
  error : Option String
deriving DecidableEq, Repr

/-- `gas_substitution_workflow`: every failure — including the PACKMOL
timeout — is caught inside the wrapper, which then returns
`{'success': False, 'error': str(e), ...}`; `_execute_packmol`'s
`(False, None)` returns are converted to the caught
`RuntimeError("PACKMOL execution failed")`.  On exit code 0 the success
dict is returned.  The wrapper never raises and never returns `None`. -/
def gasSubstitutionWorkflow : PackmolOutcome → SubstResult
  | .exitZero => { success := true, error := none }
  | .prepFailure m => { success := false, error := some m }
  | _ => { success := false, error := some "PACKMOL execution failed" }

/-- Collaborator environment for one workflow execution. -/
structure Env where
  packmol : PackmolOutcome
  /-- `analyze_trajectory`: raises with a message, or returns its results
  dict (contents irrelevant to the orchestration logic). -/
  analyze : Except String Unit
  /-- `create_presentation`: raises with a message, or returns the path of
  the generated deck. -/
  present : Except String String

/-- A step's captured output value (`step_result['output']`). -/
inductive StepOut where
  | subst (r : SubstResult)
  | valid
  | analysis
  | pres (path : String)
  | visual
deriving DecidableEq, Repr

/-- `_execute_substitute_step`: raises `ValueError("No input file
specified")` when no file entity was captured, otherwise returns whatever
the packing wrapper's workflow returns. -/
def substituteStep (env : Env) (cmd : Command) : Except String StepOut :=
  match cmd.entities.files.head? with
  | none => .error "No input file specified"
  | some _ => .ok (.subst (gasSubstitutionWorkflow env.packmol))

/-- `_execute_analyze_step`: raises without a trajectory file; otherwise
propagates `analyze_trajectory`'s exception or returns its results. -/
def analyzeStep (env : Env) (cmd : Command) : Except String StepOut :=
  match cmd.entities.files.head? with
  | none => .error "No trajectory file specified"
  | some _ =>
    match env.analyze with
    | .error m => .error m
    | .ok _ => .ok .analysis

/-- `_execute_validate_step`: raises without a structure file; otherwise
`validate_structure` catches all its own failures and returns a dict. -/
def validateStep (cmd : Command) : Except String StepOut :=
  match cmd.entities.files.head? with
  | none => .error "No structure file specified"
  | some _ => .ok .valid

/-- `_execute_presentation_step`: no file requirement; propagates
`create_presentation`'s exception or returns the deck path.  The title it
passes to the collaborator is `command['parameters'].get('title',
'Research Results')`. -/
def presentationStep (env : Env) : Except String StepOut :=
  match env.present with
  | .error m => .error m
  | .ok p => .ok (.pres p)

/-- The title the presentation step resolves from the parsed command. -/
def presentationTitle (cmd : Command) : String :=
  cmd.params.title.getD "Research Results"

/-- A `StepResult` dict (wall-clock fields omitted). -/
structure StepResult where
  step : Step
  success : Bool
  output : Option StepOut
  error : Option String
deriving DecidableEq, Repr

/-- Python `f"{action}"` for the action slot (Python `None` prints as
`"None"`). -/
def pyStr : Option String → String
  | none => "None"
  | some s => s

/-- Packaging of `_execute_step`'s try body: an exception is caught and
recorded as the error message; otherwise the output is stored.
`step_result['success'] = step_result['output'] is not None`. -/
def mkStepResult (step : Step) : Except String StepOut → StepResult
  | .ok o => { step := step, success := true, output := some o, error := none }
  | .error e => { step := step, success := false, output := none, error := some e }

/-- `_execute_step`: dispatch on the action string; any action outside the
five handled ones (including Python `None` and the parser-only actions
`remove`/`add`/`workflow`) takes the `else` branch, which sets the error
message without raising, leaves the output `None`, and therefore yields
`success=False`. -/
def executeStep (env : Env) (cmd : Command) (step : Step) : StepResult :=
  match step.action with
  | some "substitute" => mkStepResult step (substituteStep env cmd)
  | some "analyze" => mkStepResult step (analyzeStep env cmd)
  | some "validate" => mkStepResult step (validateStep cmd)
  | some "presentation" => mkStepResult step (presentationStep env)
  | some "visualize" => mkStepResult step (.ok .visual)
  | a => { step := step, success := false, output := none,
           error := some ("Unknown action: " ++ pyStr a) }

/-- The step loop of `execute_workflow`: execute in order, append each
`StepResult`; on the first `success=False` result set the overall flag to
`False` and `break`. -/
def runSteps (env : Env) (cmd : Command) : List Step → List StepResult × Bool
  | [] => ([], true)
  | s :: rest =>
    let r := executeStep env cmd s
    if r.success then
      let (rs, ok) := runSteps env cmd rest
      (r :: rs, ok)
    else ([r], false)

/-- The workflow results dict (timing fields omitted).  `error` is the
top-level key set only when the executor's own `try` block catches an
exception; every operation inside that block is total in this model, so it
stays `none`. -/
structure WorkflowResult where
  command : Command
  steps : List StepResult
  success : Bool
  error : Option String
deriving DecidableEq, Repr

/-- `execute_workflow`. -/
def executeWorkflow (env : Env) (cmd : Command) : WorkflowResult :=
  let (rs, ok) := runSteps env cmd cmd.workflowSteps
  { command := cmd, steps := rs, success := ok, error := none }

/-- A request text assembled from a first clause and a list of
(conjunction-marker, clause) pairs: `c₀ s₁ c₁ s₂ c₂ …`.  Used to state the
multi-clause planning property. -/
def interleave (c : Text) : List (String × Text) → Text
  | [] => c
  | (s, c') :: ps => c ++ s :: interleave c' ps

end Orchestrator

namespace MDCrow

/-! ## `plugins/ai/mdcrow_agent.py` — `MDCrowAgent` -/

/-- The intent-to-keyword table of `_analyze_intent`, in declaration
order. -/
def intents : List (String × List String) :=
  [("gas_substitution", ["substitute", "replace", "swap", "remove", "add"]),
   ("analysis", ["analyze", "analysis", "examine", "study", "investigate"]),
   ("validation", ["validate", "verify", "check", "inspect", "review"]),
   ("presentation", ["presentation", "slides", "powerpoint", "report"]),
   ("visualization", ["visualize", "render", "display", "show", "plot"]),
   ("information", ["what", "how", "why", "explain", "describe"]),
   ("workflow", ["workflow", "pipeline", "process", "complete", "end-to-end"])]

/-- `sum(1 for keyword in keywords if keyword in request_lower)`. -/
def intentScore (text : Text) (kws : List String) : Nat :=
  (kws.filter (containsKw text)).length

/-- The `intent_scores` dict: intents with a positive score, in table
(insertion) order. -/
def posScores (text : Text) : List (String × Nat) :=
  ((intents.map fun p => (p.1, intentScore text p.2)).filter fun q => 0 < q.2)

/-- Python `max(iterable, key=f)` keeps the earliest element whose key is
maximal: a later element replaces the current best only on a strictly
greater key. -/
def goPair (b : String × Nat) : List (String × Nat) → String × Nat
  | [] => b
  | p :: r => goPair (if b.2 < p.2 then p else b) r

/-- `max(intent_scores, key=intent_scores.get)` over the insertion-ordered
dict, or `None` when the dict is empty. -/
def firstMaxPair : List (String × Nat) → Option (String × Nat)
  | [] => none
  | b :: l => some (goPair b l)

/-- `primary_intent`: the first highest-scoring intent, else `'general'`. -/
def primaryIntent (text : Text) : String :=
  match firstMaxPair (posScores text) with
  | some p => p.1
  | none => "general"

/-- `_assess_complexity`: first tier whose indicator list matches, checked
in `simple`, `moderate`, `complex` order; default `'simple'`. -/
def complexityTiers : List (String × List String) :=
  [("simple", ["show", "display", "what", "how"]),
   ("moderate", ["analyze", "calculate", "validate", "substitute"]),
   ("complex", ["workflow", "pipeline", "complete", "end-to-end", "then", "and"])]

/-- Complexity tier of a request. -/
def assessComplexity (text : Text) : String :=
  ((complexityTiers.find? fun p => p.2.any (containsKw text)).map (·.1)).getD
    "simple"

/-- The agent's entity bag; only `files` and `numbers` are read by the
planners and parameter extractors (`molecules` and `tools` are populated in
the source but consumed by nothing the claims touch). -/
structure Entities where
  files : List String
  numbers : List Nat
deriving DecidableEq, Repr

/-- `_extract_entities`: the two extension-whitelist file patterns, and
`[int(n) for n in re.findall(r'\d+', request)]` — every maximal digit run
in the request, including digits embedded in other tokens. -/
def extractEntities (text : Text) : Entities :=
  let cs := joinChars text
  { files := fileScan1 cs ++ fileScan2 cs,
    numbers := (digitRuns cs).map parseNatDigits }

/-- The intent analysis returned by `_analyze_intent`. -/
structure Intent where
  primary : String
  scores : List (String × Nat)
  complexity : String
  entities : Entities
deriving DecidableEq, Repr

/-- `_analyze_intent`. -/
def analyzeIntent (text : Text) : Intent :=
  { primary := primaryIntent text, scores := posScores text,
    complexity := assessComplexity text, entities := extractEntities text }

/-- Parameters of the gas-substitution tool call.  `density` is the
constant `0.18` (kept as its source numeral; no code path overrides or
inspects it). -/
structure SubstParams where
  inputStructure : Option String
  removeSpecies : String
  addSpecies : String
  count : Nat
  density : String
deriving DecidableEq, Repr

/-- `_extract_substitution_parameters`: defaults `O2`/`O`/`100`, overridden
by a `remove\s+(\w+)` capture, an `add\s+(\w+)` capture, and the first
extracted number (`entities['numbers'][0]`) respectively. -/
def extractSubstitutionParameters (text : Text) (ents : Entities) : SubstParams :=
  let cs := joinChars text
  { inputStructure := ents.files.head?,
    removeSpecies := (kwCaptureScan "remove".toList cs).getD "O2",
    addSpecies := (kwCaptureScan "add".toList cs).getD "O",
    count := ents.numbers.head?.getD 100,
    density := "0.18" }

/-- Parameters of the analysis tool call
(`_extract_analysis_parameters`). -/
structure AnalysisParams where
  trajectoryFile : Option String
  bonds : Bool
  rdf : Bool
  energy : Bool
  plots : Bool
deriving DecidableEq, Repr

/-- `_extract_analysis_parameters`. -/
def extractAnalysisParameters (text : Text) (ents : Entities) : AnalysisParams :=
  { trajectoryFile := ents.files.head?,
    bonds := containsKw text "bond", rdf := containsKw text "rdf",
    energy := containsKw text "energy", plots := containsKw text "plot" }

/-- Parameters of the presentation tool call
(`_extract_presentation_parameters`). -/
structure PresentationParams where
  analysisDir : String
  title : String
deriving DecidableEq, Repr

/-- `_extract_presentation_parameters`: fixed analysis dir, and a title
captured by `title[:\s]+([^,\n]+)` (stripped) when that pattern matches,
else the default `"Research Results"`. -/
def extractPresentationParameters (text : Text) : PresentationParams :=
  { analysisDir := "analysis",
    title := (titleScan (joinChars text)).getD "Research Results" }

/-- The parameter payload of one planned tool call. -/
inductive ToolParams where
  | subst (p : SubstParams)
  | valid (interactive : Bool)
  | analysis (p : AnalysisParams)
  | pres (p : PresentationParams)
deriving DecidableEq, Repr

/-- One entry of the tool plan. -/
structure ToolStep where
  tool : String
  action : String
  params : ToolParams
  priority : Nat
deriving DecidableEq, Repr

/-- `_plan_workflow_steps`: scan the whole request once per keyword, in the
fixed order `substitute`, `validate`, `analyze`, `presentation`, appending
one step per keyword found, with priorities `1`, `2`, `3`, `4`. -/
def planWorkflowSteps (text : Text) (ents : Entities) : List ToolStep :=
  (if containsKw text "substitute" then
    [{ tool := "packmol", action := "gas_substitution_workflow",
       params := .subst (extractSubstitutionParameters text ents), priority := 1 }]
  else []) ++
  (if containsKw text "validate" then
    [{ tool := "viamd", action := "validate_structure",
       params := .valid false, priority := 2 }]
  else []) ++
  (if containsKw text "analyze" then
    [{ tool := "existing_analysis", action := "analyze_trajectory",
       params := .analysis (extractAnalysisParameters text ents), priority := 3 }]
  else []) ++
  (if containsKw text "presentation" then
    [{ tool := "existing_analysis", action := "create_presentation",
       params := .pres (extractPresentationParameters text), priority := 4 }]
  else [])

/-- The fixed precedence table behind `_plan_workflow_steps`, as the spec
describes it: the ordered action keywords `substitute`, `validate`,
`analyze`, `presentation`, each paired with the step it appends (priorities
`1`–`4`).  Used to state that the plan is exactly the keyword-filtered
table. -/
def planWorkflowTable (text : Text) (ents : Entities) : List (String × ToolStep) :=
  [("substitute",
    { tool := "packmol", action := "gas_substitution_workflow",
      params := .subst (extractSubstitutionParameters text ents), priority := 1 }),
   ("validate",
    { tool := "viamd", action := "validate_structure",
      params := .valid false, priority := 2 }),
   ("analyze",
    { tool := "existing_analysis", action := "analyze_trajectory",
      params := .analysis (extractAnalysisParameters text ents), priority := 3 }),
   ("presentation",
    { tool := "existing_analysis", action := "create_presentation",
      params := .pres (extractPresentationParameters text), priority := 4 })]

/-- `_plan_tool_usage`: dispatch on the primary intent; the intents with no
branch (`visualization`, `information`, `general`) leave the plan empty. -/
def planToolUsage (text : Text) : List ToolStep :=
  let intent := analyzeIntent text
  let ents := intent.entities
  if intent.primary = "gas_substitution" then
    [{ tool := "packmol", action := "gas_substitution_workflow",
       params := .subst (extractSubstitutionParameters text ents), priority := 1 }] ++
    (if containsKw text "validate" || containsKw text "check" then
      [{ tool := "viamd", action := "validate_structure",
         params := .valid false, priority := 2 }]
    else [])
  else if intent.primary = "analysis" then
    [{ tool := "existing_analysis", action := "analyze_trajectory",
       params := .analysis (extractAnalysisParameters text ents), priority := 1 }]
  else if intent.primary = "validation" then
    [{ tool := "viamd", action := "validate_structure",
       params := .valid true, priority := 1 }]
  else if intent.primary = "presentation" then
    [{ tool := "existing_analysis", action := "create_presentation",
       params := .pres (extractPresentationParameters text), priority := 1 }]
  else if intent.primary = "workflow" then
    planWorkflowSteps text ents
  else []

/-- What happens when `_execute_tools` runs one planned step: the named
tool may be missing from the registry, the method may be missing on the
tool, the call may raise, or it may return a value. -/
inductive ToolCallOutcome where
  | toolMissing
  | methodMissing
  | raised (msg : String)
  | ok
deriving DecidableEq, Repr

/-- Per-step collaborator behaviour for a tool-plan execution. -/
def ToolEnv := ToolStep → ToolCallOutcome

/-- One entry of the `tool_results` dict. -/
structure ToolResult where
  success : Bool
  error : Option String
  tool : String
  action : String
deriving DecidableEq, Repr

/-- The result entry `_execute_tools` records for one step. -/
def toolCallResult (env : ToolEnv) (st : ToolStep) : ToolResult :=
  match env st with
  | .ok => { success := true, error := none, tool := st.tool, action := st.action }
  | .methodMissing =>
    { success := false, error := some ("Method " ++ st.action ++ " not found"),
      tool := st.tool, action := st.action }
  | .toolMissing =>
    { success := false, error := some ("Tool " ++ st.tool ++ " not available"),
      tool := st.tool, action := st.action }
  | .raised m =>
    { success := false, error := some m, tool := st.tool, action := st.action }

/-- Insertion into a Python dict modelled as an ordered association list:
an existing key keeps its position and gets the new value, a fresh key is
appended. -/
def dictInsert (k : String) (v : ToolResult) :
    List (String × ToolResult) → List (String × ToolResult)
  | [] => [(k, v)]
  | (k', v') :: r =>
    if k' = k then (k, v) :: r else (k', v') :: dictInsert k v r

/-- Stable insertion by priority: the new element goes after every element
of equal or smaller priority, matching Python's stable
`sort(key=lambda x: x.get('priority', 0))`. -/
def insertByPriority (x : ToolStep) : List ToolStep → List ToolStep
  | [] => [x]
  | y :: ys =>
    if y.priority ≤ x.priority then y :: insertByPriority x ys else x :: y :: ys

/-- Stable sort by priority. -/
def sortByPriority : List ToolStep → List ToolStep
  | [] => []
  | x :: xs => insertByPriority x (sortByPriority xs)

/-- `_execute_tools`: sort the plan by priority (stable), then run each
step, keying its result by `f"{tool_name}_{action}"`. -/
def executeTools (env : ToolEnv) (plan : List ToolStep) :
    List (String × ToolResult) :=
  (sortByPriority plan).foldl
    (fun acc st => dictInsert (st.tool ++ "_" ++ st.action)
      (toolCallResult env st) acc) []

/-- `_generate_summary`. -/
def generateSummary (primary : String) (results : List (String × ToolResult)) :
    String :=
  let successCount := (results.filter fun r => r.2.success).length
  let totalCount := results.length
  if successCount = totalCount then
    "Successfully completed " ++ primary ++ " request using " ++
      toString totalCount ++ " tools."
  else
    "Partially completed " ++ primary ++ " request: " ++
      toString successCount ++ "/" ++ toString totalCount ++ " tools succeeded."

/-- `_generate_recommendations`: a fixed remediation hint per failing
collaborator, then intent-specific generic hints. -/
def generateRecommendations (primary : String)
    (results : List (String × ToolResult)) : List String :=
  (results.filterMap fun r =>
    if r.2.success then none
    else if r.2.tool = "packmol" then
      some "Install PACKMOL: conda install -c conda-forge packmol"
    else if r.2.tool = "viamd" then
      some "Install VIAMD for visual validation"
    else none) ++
  (if primary = "gas_substitution" then
    ["Consider visual validation after substitution",
     "Run trajectory analysis on substituted structure"]
  else [])

/-- `_suggest_next_steps`: a static lookup keyed off the primary intent. -/
def suggestNextSteps (primary : String) : List String :=
  if primary = "gas_substitution" then
    ["Run visual validation on substituted structure",
     "Perform trajectory analysis", "Create presentation with results"]
  else if primary = "analysis" then
    ["Create presentation from analysis results",
     "Export data for further processing",
     "Consider parameter sensitivity analysis"]
  else []

/-- The synthesized response of `_synthesize_response` (timestamp and the
raw echo fields omitted). -/
structure Response where
  success : Bool
  summary : String
  recommendations : List String
  nextSteps : List String
deriving DecidableEq, Repr

/-- `_synthesize_response`:
`success = all(result.get('success', False) for result in
tool_results.values())` — vacuously `True` over an empty dict. -/
def synthesizeResponse (intent : Intent)
    (results : List (String × ToolResult)) : Response :=
  { success := results.all fun r => r.2.success,
    summary := generateSummary intent.primary results,
    recommendations := generateRecommendations intent.primary results,
    nextSteps := suggestNextSteps intent.primary }

/-- `_generate_response`: analyze, plan, execute, synthesize. -/
def generateResponse (env : ToolEnv) (text : Text) : Response :=
  synthesizeResponse (analyzeIntent text) (executeTools env (planToolUsage text))

end MDCrow

/-! # Theorems -/

namespace Orchestrator

/-- The step loop, on any step list: when the results of the first `k`
steps all succeed and the `(k+1)`-st fails, the loop returns exactly the
first `k+1` results and the overall flag `false`. -/
theorem runSteps_halt (env : Env) (cmd : Command) (l : List Step) (k : Nat)
    (s : Step) (hs : l[k]? = some s)
    (hfail : (executeStep env cmd s).success = false)
    (hok : ∀ t ∈ l.take k, (executeStep env cmd t).success = true) :
    runSteps env cmd l = ((l.take (k + 1)).map (executeStep env cmd), false) := by
  induction l generalizing k with
  | nil => simp at hs
  | cons a rest ih =>
    cases k with
    | zero =>
      simp only [List.getElem?_cons_zero, Option.some.injEq] at hs
      subst hs
      simp [runSteps, hfail]
    | succ k =>
      have ha : (executeStep env cmd a).success = true := by
        exact hok a (by simp [List.take_succ_cons])
      have hrest : ∀ t ∈ rest.take k, (executeStep env cmd t).success = true := by
        intro t ht
        exact hok t (by simp [List.take_succ_cons, ht])
      have hs' : rest[k]? = some s := by simpa using hs
      simp [runSteps, ha, ih k hs' hrest, List.take_succ_cons]

/-- C1.  Executing a plan in order, if the step at (0-based) index `k` is
the first whose `StepResult` has `success=false`, then the
`WorkflowResult` contains exactly the `k + 1` step results of the plan's
first `k + 1` steps — no step after the failing one is attempted — and the
overall success flag is `false`. -/
theorem execute_workflow_halts_at_first_failure (env : Env) (cmd : Command)
    (k : Nat) (s : Step) (hs : cmd.workflowSteps[k]? = some s)
    (hfail : (executeStep env cmd s).success = false)
    (hok : ∀ t ∈ cmd.workflowSteps.take k, (executeStep env cmd t).success = true) :
    (executeWorkflow env cmd).steps =
        (cmd.workflowSteps.take (k + 1)).map (executeStep env cmd) ∧
      (executeWorkflow env cmd).steps.length = k + 1 ∧
      (executeWorkflow env cmd).success = false := by
  have hrun := runSteps_halt env cmd cmd.workflowSteps k s hs hfail hok
  have hlen : k + 1 ≤ cmd.workflowSteps.length := by
    by_contra hm
    rw [List.getElem?_eq_none (by omega)] at hs
    exact Option.noConfusion hs
  refine ⟨by simp [executeWorkflow, hrun], ?_, by simp [executeWorkflow, hrun]⟩
  simp [executeWorkflow, hrun, List.length_take, Nat.min_eq_left hlen]

/-- C1 witness: the spec's halt-on-failure scenario.  The request
`"visualize then analyze then validate"` plans three steps; no file entity
is present, so step 2 (`analyze`) raises `ValueError("No trajectory file
specified")` while step 1 (`visualize`) succeeds.  The workflow records
exactly 2 step results and fails; step 3 is never attempted. -/
theorem execute_workflow_halts_at_first_failure_witness :
    ((Orchestrator.parseRequest
        ["visualize", "then", "analyze", "then", "validate"]).workflowSteps[1]? =
      some { action := some "analyze", description := ["analyze"],
             estimatedTime := 30 }) ∧
    ((executeWorkflow { packmol := .exitZero, analyze := .ok (), present := .ok "deck.pptx" }
        (Orchestrator.parseRequest
          ["visualize", "then", "analyze", "then", "validate"])).steps.length = 1 + 1 ∧
      (executeWorkflow { packmol := .exitZero, analyze := .ok (), present := .ok "deck.pptx" }
        (Orchestrator.parseRequest
          ["visualize", "then", "analyze", "then", "validate"])).success = false) :=
  ⟨by decide,
    ((execute_workflow_halts_at_first_failure
      { packmol := .exitZero, analyze := .ok (), present := .ok "deck.pptx" }
      (Orchestrator.parseRequest ["visualize", "then", "analyze", "then", "validate"])
      1
      { action := some "analyze", description := ["analyze"], estimatedTime := 30 }
      (by decide) (by decide) (by decide)).2.1),
    ((execute_workflow_halts_at_first_failure
      { packmol := .exitZero, analyze := .ok (), present := .ok "deck.pptx" }
      (Orchestrator.parseRequest ["visualize", "then", "analyze", "then", "validate"])
      1
      { action := some "analyze", description := ["analyze"], estimatedTime := 30 }
      (by decide) (by decide) (by decide)).2.2)⟩

/-- C2 (code bug).  The request `"substitute O2 in slab.xyz and
visualize"` plans `[substitute, visualize]` with the file entity
`slab.xyz`.  When the packing collaborator exceeds its 300-second timeout,
`gas_substitution_workflow` catches the `TimeoutExpired` internally and
returns `{'success': False, 'error': 'PACKMOL execution failed'}` instead
of raising; `_execute_step` only tests `output is not None`, so it records
the substitute step as `success=True`, the plan is **not** halted (the
visualize step still runs), and the workflow reports overall success —
contradicting the spec's requirement that a packing-collaborator timeout
be recorded as a failed StepResult that halts the remaining plan. -/
theorem packmol_timeout_recorded_as_success_and_plan_continues :
    ((executeWorkflow { packmol := .timeout, analyze := .ok (), present := .ok "deck.pptx" }
        (Orchestrator.parseRequest
          ["substitute", "O2", "in", "slab.xyz", "and", "visualize"])).steps.map
        (fun r => (r.step.action, r.success, r.output, r.error))) =
      [(some "substitute", true,
        some (.subst { success := false, error := some "PACKMOL execution failed" }),
        none),
       (some "visualize", true, some .visual, none)] ∧
    (executeWorkflow { packmol := .timeout, analyze := .ok (), present := .ok "deck.pptx" }
        (Orchestrator.parseRequest
          ["substitute", "O2", "in", "slab.xyz", "and", "visualize"])).success = true := by
  exact ⟨by decide, by decide⟩

/-- Scanning a marker-free block of tokens only accumulates them onto the
current fragment. -/
theorem splitConjAux_append (c : Text) (hc : ∀ t ∈ c, isConjMarker t = false) :
    ∀ (cur rest : Text),
      splitConjAux cur (c ++ rest) = splitConjAux (c.reverse ++ cur) rest := by
  induction c with
  | nil => intro cur rest; simp
  | cons t c' ih =>
    intro cur rest
    have ht : isConjMarker t = false := hc t (by simp)
    have hc' : ∀ u ∈ c', isConjMarker u = false := fun u hu => hc u (by simp [hu])
    rw [List.cons_append,
      show splitConjAux cur (t :: (c' ++ rest)) = splitConjAux (t :: cur) (c' ++ rest)
        by simp [splitConjAux, ht],
      ih hc' (t :: cur) rest]
    simp

/-- An interleaving starting from a nonempty clause is nonempty. -/
theorem interleave_ne_nil (c : Text) (ps : List (String × Text)) (hc : c ≠ []) :
    interleave c ps ≠ [] := by
  cases ps with
  | nil => simpa [interleave]
  | cons p ps' =>
    obtain ⟨s, c'⟩ := p
    simp [interleave]

/-- Splitting inverts interleaving: joining nonempty, marker-free clauses
with conjunction-marker tokens and splitting again recovers exactly the
clauses, in order. -/
theorem splitConj_interleave (ps : List (String × Text)) (c : Text)
    (hc : c ≠ []) (hcm : ∀ t ∈ c, isConjMarker t = false)
    (hps : ∀ p ∈ ps, isConjMarker p.1 = true ∧ p.2 ≠ [] ∧
      ∀ t ∈ p.2, isConjMarker t = false) :
    splitConj (interleave c ps) = c :: ps.map (·.2) := by
  induction ps generalizing c with
  | nil =>
    show splitConjAux [] (interleave c []) = [c]
    rw [interleave, ← List.append_nil c, splitConjAux_append c hcm [] []]
    simp [splitConjAux]
  | cons p ps' ih =>
    obtain ⟨s, c'⟩ := p
    have hmark : isConjMarker s = true := (hps (s, c') (by simp)).1
    have hc' : c' ≠ [] := (hps (s, c') (by simp)).2.1
    have hcm' : ∀ t ∈ c', isConjMarker t = false := (hps (s, c') (by simp)).2.2
    have hps' : ∀ p ∈ ps', isConjMarker p.1 = true ∧ p.2 ≠ [] ∧
        ∀ t ∈ p.2, isConjMarker t = false := fun p hp => hps p (by simp [hp])
    show splitConjAux [] (interleave c ((s, c') :: ps')) = _
    rw [interleave, splitConjAux_append c hcm [] (s :: interleave c' ps')]
    have hcur : (c.reverse ++ [] : Text).isEmpty = false := by
      simp [List.isEmpty_iff, hc]
    have hrest : (interleave c' ps').isEmpty = false := by
      simp [List.isEmpty_iff, interleave_ne_nil c' ps' hc']
    simp only [splitConjAux, hmark, hcur, hrest, Bool.not_false, Bool.and_self,
      if_pos, Bool.true_and, if_true]
    rw [show splitConjAux [] (interleave c' ps') = splitConj (interleave c' ps')
        from rfl, ih c' hc' hcm' hps']
    simp

/-- C3 (amended).  For a request built by joining `N` nonempty, marker-free
clauses with conjunction markers (`then`/`and`/`,` tokens), *provided* the
joined text contains `then` or `and` as a substring (the code's trigger
`'then' in request.lower() or 'and' in request.lower()` — a comma alone
does not trigger splitting), the planner splits on the markers and the
resulting plan has exactly `N` steps whose descriptions are the clauses in
left-to-right order, regardless of the primary action. -/
theorem infer_workflow_steps_splits_clauses (c : Text) (ps : List (String × Text))
    (pa : Option String) (hc : c ≠ [])
    (hcm : ∀ t ∈ c, isConjMarker t = false)
    (hps : ∀ p ∈ ps, isConjMarker p.1 = true ∧ p.2 ≠ [] ∧
      ∀ t ∈ p.2, isConjMarker t = false)
    (htrigger : containsThenAnd (interleave c ps) = true) :
    ((inferWorkflowSteps (interleave c ps) pa).map (·.description)) =
        c :: ps.map (·.2) ∧
      (inferWorkflowSteps (interleave c ps) pa).length = ps.length + 1 := by
  have hsplit := splitConj_interleave ps c hc hcm hps
  have hfilter : ((splitConj (interleave c ps)).filter fun p => !p.isEmpty) =
      c :: ps.map (·.2) := by
    rw [hsplit]
    apply List.filter_eq_self.mpr
    intro x hx
    rcases List.mem_cons.mp hx with h | h
    · simp [h, List.isEmpty_iff, hc]
    · obtain ⟨p, hp, hpx⟩ := List.mem_map.mp h
      simp [← hpx, List.isEmpty_iff, (hps p hp).2.1]
  constructor
  · simp [inferWorkflowSteps, htrigger, hfilter, List.map_map, Function.comp]
  · simp [inferWorkflowSteps, htrigger, hfilter]

/-- C3 witness: `"analyze traj.xyz then validate it"` — two clauses joined
by `then` — plans exactly the two clauses, in order. -/
theorem infer_workflow_steps_splits_clauses_witness :
    (["analyze", "traj.xyz"] ≠ ([] : Text) ∧
      containsThenAnd
        (interleave ["analyze", "traj.xyz"] [("then", ["validate", "it"])]) = true) ∧
    (((inferWorkflowSteps
          (interleave ["analyze", "traj.xyz"] [("then", ["validate", "it"])])
          (some "analyze")).map (·.description)) =
        [["analyze", "traj.xyz"], ["validate", "it"]] ∧
      (inferWorkflowSteps
          (interleave ["analyze", "traj.xyz"] [("then", ["validate", "it"])])
          (some "analyze")).length = 1 + 1) :=
  ⟨⟨by decide, by decide⟩,
    infer_workflow_steps_splits_clauses ["analyze", "traj.xyz"]
      [("then", ["validate", "it"])] (some "analyze")
      (by decide) (by decide) (by decide) (by decide)⟩

/-- C3 counterexample: two clauses joined *only* by a comma separator.
The comma is a conjunction marker of the split pattern, but the split is
gated on `'then' in request.lower() or 'and' in request.lower()`, which
fails here — so the plan has 1 step, not the 2 the claim requires. -/
theorem comma_only_join_does_not_split :
    interleave ["analyze", "a.xyz"] [(",", ["validate", "b.xyz"])] =
        ["analyze", "a.xyz", ",", "validate", "b.xyz"] ∧
      isConjMarker "," = true ∧
      (parseRequest ["analyze", "a.xyz", ",", "validate", "b.xyz"]).workflowSteps.length
          = 1 ∧
      ¬ (parseRequest
          ["analyze", "a.xyz", ",", "validate", "b.xyz"]).workflowSteps.length = 2 := by
  exact ⟨by decide, by decide, by decide, by decide⟩

end Orchestrator

/-- C5 counterexample: the request `"hello"` contains no recognized
keyword.  The intent classifier does return `general`, but the planner's
single step carries the Python `None` action (the parser's `primary_action`
loop variable never being assigned), not the string `"unknown"`: the
`'unknown'` fallback exists only in `_identify_action`, which runs solely
on the conjunction-split path. -/
theorem no_keyword_step_action_is_none_not_unknown :
    (MDCrow.analyzeIntent ["hello"]).primary = "general" ∧
      ((Orchestrator.parseRequest ["hello"]).workflowSteps.map (·.action)) = [none] ∧
      ¬ ((Orchestrator.parseRequest ["hello"]).workflowSteps.map (·.action))
          = [some "unknown"] := by
  exact ⟨by decide, by decide, by decide⟩

/-- C5 (amended).  For every request in which no intent keyword scores, no
action pattern matches, and the substrings `then`/`and` do not occur, the
intent classifier returns primary intent `general` and the planner returns
a plan that is never empty: exactly one step whose action is the absent
(`None`) marker — not the string `"unknown"` — with the whole request as
its description.  (When the text does contain `then`/`and`, the split path
runs instead and each fragment's action falls back to `"unknown"`.) -/
theorem no_keyword_general_single_none_step (text : Text)
    (h1 : ∀ p ∈ MDCrow.intents, MDCrow.intentScore text p.2 = 0)
    (h2 : ∀ p ∈ Orchestrator.patterns, Orchestrator.matchesAny text p.2 = false)
    (h3 : Orchestrator.containsThenAnd text = false) :
    (MDCrow.analyzeIntent text).primary = "general" ∧
      (Orchestrator.parseRequest text).workflowSteps =
        [{ action := none, description := text, estimatedTime := 10 }] := by
  constructor
  · have hpos : MDCrow.posScores text = [] := by
      apply List.filter_eq_nil_iff.mpr
      intro q hq
      obtain ⟨p, hp, hpq⟩ := List.mem_map.mp hq
      have := h1 p hp
      simp [← hpq, this]
    simp [MDCrow.analyzeIntent, MDCrow.primaryIntent, hpos, MDCrow.firstMaxPair]
  · have hpa : Orchestrator.primaryAction text = none := by
      have : Orchestrator.patterns.find?
          (fun p => Orchestrator.matchesAny text p.2) = none := by
        apply List.find?_eq_none.mpr
        intro p hp
        simp [h2 p hp]
      simp [Orchestrator.primaryAction, this]
    simp [Orchestrator.parseRequest, Orchestrator.inferWorkflowSteps, h3, hpa,
      Orchestrator.estimateStepTime]

/-- C5 witness: `"greetings"` has no recognized keyword and no
conjunction; the intent is `general` and the plan is the single
`None`-action step. -/
theorem no_keyword_general_single_none_step_witness :
    ((∀ p ∈ MDCrow.intents, MDCrow.intentScore ["greetings"] p.2 = 0) ∧
      (∀ p ∈ Orchestrator.patterns,
        Orchestrator.matchesAny ["greetings"] p.2 = false) ∧
      Orchestrator.containsThenAnd ["greetings"] = false) ∧
    ((MDCrow.analyzeIntent ["greetings"]).primary = "general" ∧
      (Orchestrator.parseRequest ["greetings"]).workflowSteps =
        [{ action := none, description := ["greetings"], estimatedTime := 10 }]) :=
  ⟨⟨by decide, by decide, by decide⟩,
    no_keyword_general_single_none_step ["greetings"]
      (by decide) (by decide) (by decide)⟩

/-- C4 counterexample: on the text `"remove O2"` the count does *not*
resolve to the documented default 100 — `_extract_entities` collects every
maximal digit run (`re.findall(r'\d+', ...)`), so the `2` inside the
species name `O2` becomes `entities['numbers'][0]` and overrides the
default. -/
theorem remove_O2_count_is_not_default :
    (MDCrow.extractEntities ["remove", "O2"]).numbers = [2] ∧
      (MDCrow.extractSubstitutionParameters ["remove", "O2"]
        (MDCrow.extractEntities ["remove", "O2"])).count = 2 ∧
      ¬ (MDCrow.extractSubstitutionParameters ["remove", "O2"]
        (MDCrow.extractEntities ["remove", "O2"])).count = 100 := by
  exact ⟨by decide, by decide, by decide⟩

/-- C4 (amended).  For the request text `"remove O2"`, the parameter
resolver returns `remove_species = "O2"` (captured by `remove\s+(\w+)`)
and the documented default `add_species = "O"`; but `count` resolves to
`2` — the first number extracted from the text, namely the digit embedded
in `"O2"` — and the documented default `100` applies only when the text
contains no digit at all. -/
theorem remove_O2_parameter_resolution :
    MDCrow.extractSubstitutionParameters ["remove", "O2"]
        (MDCrow.extractEntities ["remove", "O2"]) =
      { inputStructure := none, removeSpecies := "O2", addSpecies := "O",
        count := 2, density := "0.18" } := by
  decide

/-- C9 counterexample: on `"analyze traj.xyz then create a presentation
titled Results"` the second step's resolved title is *not* `"Results"`:
the orchestrator's parameter extractor has no title rule at all (the
presentation step falls back to `parameters.get('title', 'Research
Results')`), and even the agent's `title[:\s]+([^,\n]+)` pattern fails on
the word `"titled"` (the literal `title` must be followed by a colon or
whitespace, but here `d` follows). -/
theorem titled_results_does_not_resolve_title :
    ¬ Orchestrator.presentationTitle
        (Orchestrator.parseRequest
          ["analyze", "traj.xyz", "then", "create", "a", "presentation",
           "titled", "Results"]) = "Results" ∧
      ¬ (MDCrow.extractPresentationParameters
          ["analyze", "traj.xyz", "then", "create", "a", "presentation",
           "titled", "Results"]).title = "Results" := by
  exact ⟨by decide, by decide⟩

/-- C9 (amended).  For the input `"analyze traj.xyz then create a
presentation titled Results"`, the resulting plan has exactly 2 steps in
the order [`analyze`, `presentation`], with the two clauses as their
descriptions; the second step's resolved title, however, is the default
`"Research Results"` (in both the orchestrator's and the agent's
resolvers), because `"titled Results"` matches no title pattern. -/
theorem analyze_then_presentation_plan_and_default_title :
    ((Orchestrator.parseRequest
        ["analyze", "traj.xyz", "then", "create", "a", "presentation",
         "titled", "Results"]).workflowSteps.map fun s => (s.action, s.description)) =
      [(some "analyze", ["analyze", "traj.xyz"]),
       (some "presentation", ["create", "a", "presentation", "titled", "Results"])] ∧
    Orchestrator.presentationTitle
        (Orchestrator.parseRequest
          ["analyze", "traj.xyz", "then", "create", "a", "presentation",
           "titled", "Results"]) = "Research Results" ∧
    (MDCrow.extractPresentationParameters
        ["analyze", "traj.xyz", "then", "create", "a", "presentation",
         "titled", "Results"]).title = "Research Results" := by
  exact ⟨by decide, by decide, by decide⟩

namespace MDCrow

/-- Unfolding one step of the fold behind Python's `max(..., key=...)`. -/
theorem goPair_cons (b p : String × Nat) (r : List (String × Nat)) :
    goPair b (p :: r) = goPair (if b.2 < p.2 then p else b) r := rfl

/-- The running best of Python's `max(..., key=...)` never decreases. -/
theorem goPair_ge (l : List (String × Nat)) :
    ∀ b : String × Nat, b.2 ≤ (goPair b l).2 := by
  induction l with
  | nil => intro b; simp [goPair]
  | cons p r ih =>
    intro b
    rw [goPair_cons]
    by_cases h : b.2 < p.2
    · rw [if_pos h]
      exact Nat.le_of_lt (Nat.lt_of_lt_of_le h (ih p))
    · rw [if_neg h]
      exact ih b

/-- Python's first-max: the fold's result splits its input into a strictly
smaller prefix, the result itself, and a no-larger suffix. -/
theorem goPair_decomp (l : List (String × Nat)) :
    ∀ b : String × Nat, ∃ l₁ l₂, b :: l = l₁ ++ goPair b l :: l₂ ∧
      (∀ q ∈ l₁, q.2 < (goPair b l).2) ∧ (∀ q ∈ l₂, q.2 ≤ (goPair b l).2) := by
  induction l with
  | nil => intro b; exact ⟨[], [], by simp [goPair], by simp, by simp⟩
  | cons p r ih =>
    intro b
    rw [goPair_cons]
    by_cases h : b.2 < p.2
    · obtain ⟨l₁, l₂, hdec, hlt, hle⟩ := ih p
      rw [if_pos h]
      refine ⟨b :: l₁, l₂, by rw [List.cons_append, ← hdec], ?_, hle⟩
      intro q hq
      rcases List.mem_cons.mp hq with hq | hq
      · subst hq
        exact Nat.lt_of_lt_of_le h (goPair_ge r p)
      · exact hlt q hq
    · obtain ⟨l₁, l₂, hdec, hlt, hle⟩ := ih b
      rw [if_neg h]
      cases l₁ with
      | nil =>
        simp only [List.nil_append] at hdec
        have hb : b = goPair b r := (List.cons_eq_cons.mp hdec).1
        have hr : r = l₂ := (List.cons_eq_cons.mp hdec).2
        refine ⟨[], p :: l₂, by rw [List.nil_append, ← hb, ← hr], by simp, ?_⟩
        intro q hq
        rcases List.mem_cons.mp hq with hq | hq
        · subst hq
          rw [← hb]
          exact Nat.le_of_not_lt h
        · exact hle q hq
      | cons y l₁' =>
        have hy : y = b := by
          have := congrArg List.head? hdec
          simpa using this.symm
        have htail : r = l₁' ++ goPair b r :: l₂ := by
          have := congrArg List.tail hdec
          simpa using this
        have hb2 : b.2 < (goPair b r).2 := by
          refine hlt b ?_
          rw [hy]
          exact List.mem_cons_self b l₁'
        refine ⟨b :: p :: l₁', l₂,
          by rw [List.cons_append, List.cons_append]
             exact congrArg (fun x => b :: p :: x) htail, ?_, hle⟩
        intro q hq
        rcases List.mem_cons.mp hq with hq | hq
        · subst hq; exact hb2
        · rcases List.mem_cons.mp hq with hq | hq
          · subst hq
            exact Nat.lt_of_le_of_lt (Nat.le_of_not_lt h) hb2
          · exact hlt q (List.mem_cons_of_mem y hq)

/-- Lifting a `filter ∘ map` decomposition back to the original table:
if the filtered image splits as `l₁ ++ m :: l₂`, the table splits as
`T₁ ++ e :: T₂` with `f e = m` and the corresponding filtered images. -/
theorem filter_map_decomp {α β : Type} (f : α → β) (pred : β → Bool) :
    ∀ (L : List α) (l₁ l₂ : List β) (m : β),
      ((L.map f).filter pred = l₁ ++ m :: l₂) →
      ∃ T₁ e T₂, L = T₁ ++ e :: T₂ ∧ f e = m ∧ pred m = true ∧
        ((T₁.map f).filter pred) = l₁ ∧ ((T₂.map f).filter pred) = l₂ := by
  intro L
  induction L with
  | nil =>
    intro l₁ l₂ m h
    simp at h
  | cons x L' ih =>
    intro l₁ l₂ m h
    by_cases hp : pred (f x) = true
    · rw [List.map_cons, List.filter_cons_of_pos hp] at h
      cases l₁ with
      | nil =>
        simp only [List.nil_append] at h
        have hx : f x = m := (List.cons_eq_cons.mp h).1
        have hrest : (L'.map f).filter pred = l₂ := (List.cons_eq_cons.mp h).2
        exact ⟨[], x, L', by simp, hx, hx ▸ hp, by simp, hrest⟩
      | cons y l₁' =>
        have hxy : f x = y := (List.cons_eq_cons.mp h).1
        have htail : (L'.map f).filter pred = l₁' ++ m :: l₂ :=
          (List.cons_eq_cons.mp h).2
        obtain ⟨T₁, e, T₂, hL, he, hpm, h1, h2⟩ := ih l₁' l₂ m htail
        refine ⟨x :: T₁, e, T₂, by simp [hL], he, hpm, ?_, h2⟩
        rw [List.map_cons, List.filter_cons_of_pos hp, h1, hxy]
    · rw [List.map_cons, List.filter_cons_of_neg hp] at h
      obtain ⟨T₁, e, T₂, hL, he, hpm, h1, h2⟩ := ih l₁ l₂ m h
      refine ⟨x :: T₁, e, T₂, by simp [hL], he, hpm, ?_, h2⟩
      rw [List.map_cons, List.filter_cons_of_neg hp, h1]

/-- C7.  When at least one intent keyword occurs in the request: the
`intent_scores` dict holds exactly the intents whose evidence score — the
number of their keywords occurring (case-insensitively) in the text — is
positive; and the primary intent is the *first* entry of the
intent-to-keyword table (in declaration order) among those with the
highest score: the table splits around the chosen entry into a prefix of
strictly smaller scores and a suffix of no-larger scores, the chosen score
being positive. -/
theorem primary_intent_is_first_highest_scoring (text : Text)
    (h : ∃ p ∈ intents, 0 < intentScore text p.2) :
    (∀ name s, (name, s) ∈ (analyzeIntent text).scores ↔
      ∃ kws, (name, kws) ∈ intents ∧ s = intentScore text kws ∧ 0 < s) ∧
    ∃ t₁ e t₂, intents = t₁ ++ e :: t₂ ∧
      (analyzeIntent text).primary = e.1 ∧
      0 < intentScore text e.2 ∧
      (∀ q ∈ t₁, intentScore text q.2 < intentScore text e.2) ∧
      (∀ q ∈ t₂, intentScore text q.2 ≤ intentScore text e.2) := by
  have hmempos : ∀ p : String × List String, p ∈ intents → 0 < intentScore text p.2 →
      (p.1, intentScore text p.2) ∈ posScores text := by
    intro p hp hpos
    refine List.mem_filter.mpr ⟨List.mem_map.mpr ⟨p, hp, rfl⟩, ?_⟩
    exact decide_eq_true hpos
  constructor
  · intro name s
    constructor
    · intro hmem
      have hmem' := List.mem_filter.mp hmem
      obtain ⟨⟨n, kws⟩, hp, hpq⟩ := List.mem_map.mp hmem'.1
      have h1 : n = name := congrArg Prod.fst hpq
      have h2 : intentScore text kws = s := congrArg Prod.snd hpq
      refine ⟨kws, ?_, h2.symm, ?_⟩
      · rw [← h1]
        exact hp
      · have := of_decide_eq_true hmem'.2
        simpa using this
    · intro ⟨kws, hmem, hval, hpos⟩
      have := hmempos (name, kws) hmem (by simpa [← hval] using hpos)
      simpa [← hval] using this
  · obtain ⟨p₀, hp₀, hpos₀⟩ := h
    have hne : posScores text ≠ [] := by
      intro hnil
      have := hmempos p₀ hp₀ hpos₀
      rw [hnil] at this
      simp at this
    obtain ⟨b, l, hbl⟩ := List.exists_cons_of_ne_nil hne
    obtain ⟨l₁, l₂, hdec, hlt, hle⟩ := goPair_decomp l b
    have hps : ((intents.map fun p => (p.1, intentScore text p.2)).filter
        fun q => decide (0 < q.2)) = l₁ ++ goPair b l :: l₂ := by
      rw [show ((intents.map fun p => (p.1, intentScore text p.2)).filter
          fun q => decide (0 < q.2)) = posScores text from rfl, hbl, hdec]
    obtain ⟨T₁, e, T₂, hL, he, hpm, h1, h2⟩ :=
      filter_map_decomp (fun p => (p.1, intentScore text p.2))
        (fun q => decide (0 < q.2)) intents l₁ l₂ (goPair b l) hps
    have hescore : intentScore text e.2 = (goPair b l).2 := congrArg Prod.snd he
    have hepos : 0 < intentScore text e.2 := by
      rw [hescore]
      exact of_decide_eq_true hpm
    refine ⟨T₁, e, T₂, hL, ?_, hepos, ?_, ?_⟩
    · have hsome : firstMaxPair (posScores text) = some (goPair b l) := by
        rw [hbl]
        rfl
      have hfm : primaryIntent text = (goPair b l).1 := by
        unfold primaryIntent
        rw [hsome]
      rw [show (analyzeIntent text).primary = primaryIntent text from rfl, hfm,
        ← he]
    · intro q hq
      by_cases hqpos : 0 < intentScore text q.2
      · have hmem : (q.1, intentScore text q.2) ∈ l₁ := by
          rw [← h1]
          refine List.mem_filter.mpr ⟨List.mem_map.mpr ⟨q, hq, rfl⟩, ?_⟩
          exact decide_eq_true hqpos
        have := hlt _ hmem
        simpa [hescore] using this
      · omega
    · intro q hq
      by_cases hqpos : 0 < intentScore text q.2
      · have hmem : (q.1, intentScore text q.2) ∈ l₂ := by
          rw [← h2]
          refine List.mem_filter.mpr ⟨List.mem_map.mpr ⟨q, hq, rfl⟩, ?_⟩
          exact decide_eq_true hqpos
        have := hle _ hmem
        simpa [hescore] using this
      · omega

/-- C8.  For every request whose primary intent is `workflow`, the plan is
exactly the keyword-filtered fixed precedence table — one step per action
keyword found, appended in the fixed order `substitute`, `validate`,
`analyze`, `presentation` with priorities 1, 2, 3, 4 — so the plan's
priorities are strictly increasing regardless of where the keywords occur
in the text. -/
theorem workflow_intent_fixed_precedence (text : Text)
    (h : (analyzeIntent text).primary = "workflow") :
    planToolUsage text =
        ((planWorkflowTable text (extractEntities text)).filter
          fun p => containsKw text p.1).map (·.2) ∧
      List.Pairwise (· < ·) ((planToolUsage text).map (·.priority)) := by
  have hplan : planToolUsage text = planWorkflowSteps text (extractEntities text) := by
    simp only [planToolUsage, h]
    rfl
  constructor
  · rw [hplan]
    unfold planWorkflowSteps planWorkflowTable
    cases h1 : containsKw text "substitute" <;>
      cases h2 : containsKw text "validate" <;>
      cases h3 : containsKw text "analyze" <;>
      cases h4 : containsKw text "presentation" <;>
      simp [h1, h2, h3, h4]
  · rw [hplan]
    unfold planWorkflowSteps
    cases h1 : containsKw text "substitute" <;>
      cases h2 : containsKw text "validate" <;>
      cases h3 : containsKw text "analyze" <;>
      cases h4 : containsKw text "presentation" <;>
      simp [h1, h2, h3, h4]

/-- C8 witness: `"complete workflow: analyze and validate"` has primary
intent `workflow`; the plan lists `validate` (priority 2) before
`analyze` (priority 3) although the text mentions them in the opposite
order. -/
theorem workflow_intent_fixed_precedence_witness :
    ((analyzeIntent ["complete", "workflow:", "analyze", "and", "validate"]).primary
        = "workflow") ∧
    (planToolUsage ["complete", "workflow:", "analyze", "and", "validate"] =
        ((planWorkflowTable ["complete", "workflow:", "analyze", "and", "validate"]
            (extractEntities ["complete", "workflow:", "analyze", "and", "validate"])).filter
          fun p => containsKw ["complete", "workflow:", "analyze", "and", "validate"] p.1).map
            (·.2) ∧
      List.Pairwise (· < ·)
        ((planToolUsage ["complete", "workflow:", "analyze", "and", "validate"]).map
          (·.priority))) :=
  ⟨by decide,
    workflow_intent_fixed_precedence
      ["complete", "workflow:", "analyze", "and", "validate"] (by decide)⟩

/-- C10.  When the primary intent is one of `visualization`,
`information`, `general` — intents for which `_plan_tool_usage` has no
branch — the tool plan is empty; the synthesized response then has
`success = True` (the conjunction over zero tool results is vacuously
true) and its summary reads `"Successfully completed <intent> request
using 0 tools."`. -/
theorem empty_plan_vacuous_success (text : Text) (env : ToolEnv)
    (h : (analyzeIntent text).primary ∈
      (["visualization", "information", "general"] : List String)) :
    planToolUsage text = [] ∧
      (generateResponse env text).success = true ∧
      (generateResponse env text).summary =
        "Successfully completed " ++ (analyzeIntent text).primary ++
          " request using 0 tools." := by
  have hplan : planToolUsage text = [] := by
    simp only [List.mem_cons, List.not_mem_nil, or_false] at h
    rcases h with h | h | h <;> · simp only [planToolUsage, h]; rfl
  have hempty : executeTools env (planToolUsage text) = [] := by
    rw [hplan]
    rfl
  refine ⟨hplan, ?_, ?_⟩
  · simp [generateResponse, hempty, synthesizeResponse]
  · have hsum : (generateResponse env text).summary =
        generateSummary (analyzeIntent text).primary [] := by
      show (synthesizeResponse (analyzeIntent text)
          (executeTools env (planToolUsage text))).summary = _
      rw [hempty]
      rfl
    simp only [List.mem_cons, List.not_mem_nil, or_false] at h
    rcases h with h | h | h <;> rw [hsum, h] <;> decide

/-- C10 witness: `"show"` (primary intent `visualization`) produces the
empty plan and the vacuous success summary. -/
theorem empty_plan_vacuous_success_witness :
    ((analyzeIntent ["show"]).primary ∈
      (["visualization", "information", "general"] : List String)) ∧
    (planToolUsage ["show"] = [] ∧
      (generateResponse (fun _ => .ok) ["show"]).success = true ∧
      (generateResponse (fun _ => .ok) ["show"]).summary =
        "Successfully completed " ++ (analyzeIntent ["show"]).primary ++
          " request using 0 tools.") :=
  ⟨by decide, empty_plan_vacuous_success ["show"] (fun _ => .ok) (by decide)⟩

/-- C7 witness: for `"analyze and validate"` two intents tie at score 1
(`analysis` and `validation`); the declaration-order tie-break picks
`analysis`, the earlier table entry. -/
theorem primary_intent_is_first_highest_scoring_witness :
    (∃ p ∈ intents, 0 < intentScore ["analyze", "and", "validate"] p.2) ∧
    ((∀ name s, (name, s) ∈ (analyzeIntent ["analyze", "and", "validate"]).scores ↔
      ∃ kws, (name, kws) ∈ intents ∧
        s = intentScore ["analyze", "and", "validate"] kws ∧ 0 < s) ∧
    ∃ t₁ e t₂, intents = t₁ ++ e :: t₂ ∧
      (analyzeIntent ["analyze", "and", "validate"]).primary = e.1 ∧
      0 < intentScore ["analyze", "and", "validate"] e.2 ∧
      (∀ q ∈ t₁, intentScore ["analyze", "and", "validate"] q.2 <
        intentScore ["analyze", "and", "validate"] e.2) ∧
      (∀ q ∈ t₂, intentScore ["analyze", "and", "validate"] q.2 ≤
        intentScore ["analyze", "and", "validate"] e.2)) :=
  ⟨by decide,
    primary_intent_is_first_highest_scoring ["analyze", "and", "validate"]
      (by decide)⟩

end MDCrow

end Probaah
